import Mathlib

/-!
Verification of the TCP diagnostic listener in `main.py`:
the content classifier (`DataProcessor.try_decode_text`,
`DataProcessor.detect_protocol`, `DataProcessor.format_binary_data`,
`DataProcessor.process_data`) and the per-connection session handler
(`handle_tcp_client`).

Bytes are modelled as `Nat` (each value below 256), byte payloads as
`List Nat`, and Python `str` values as `List Char` (one entry per code
point).  Python standard-library routines used by the code
(`bytes.decode`, `str.lower`, `str.strip`, `str.split`, `json.loads`,
`re.search`, `binascii.hexlify`) are given executable models that follow
the documented CPython behaviour on the code-point ranges the classifier
actually inspects; each model notes its scope in its doc comment.
-/

/-- Model of Python's whitespace set used by `str.strip` (and by `re`'s
`\s` class for `str` patterns): the ASCII whitespace control characters
together with the Unicode space characters recognised by CPython. -/
def pyIsSpace (c : Char) : Bool :=
  let n := c.toNat
  [9, 10, 11, 12, 13, 28, 29, 30, 31, 32, 0x85, 0xA0, 0x1680,
    0x2028, 0x2029, 0x202F, 0x205F, 0x3000].contains n
  || (0x2000 ≤ n && n ≤ 0x200A)

/-- Per-character model of Python `str.lower`, covering the Basic Latin
and Latin-1 ranges (the ranges that the detection logic compares against
ASCII literals): `A`–`Z` and `À`–`Þ` (except `×`) shift down by 32;
every other character is left unchanged (`str.lower` fixes `µ` and `ß`;
mappings outside Latin-1 are not modelled and cannot affect the
ASCII-literal prefix and whitespace checks). -/
def pyLowerChar (c : Char) : Char :=
  let n := c.toNat
  if 65 ≤ n ∧ n ≤ 90 then Char.ofNat (n + 32)
  else if 0xC0 ≤ n ∧ n ≤ 0xDE ∧ n ≠ 0xD7 then Char.ofNat (n + 32)
  else c

/-- Model of Python `str.strip()`: remove leading and trailing
whitespace. -/
def pyStrip (cs : List Char) : List Char :=
  ((cs.dropWhile pyIsSpace).reverse.dropWhile pyIsSpace).reverse

/-- The whitespace characters skipped by Python's `json` scanner
(`json.decoder.WHITESPACE_STR` is `' \t\n\r'`). -/
def jsonWs (c : Char) : Bool :=
  c == ' ' || c == '\t' || c == '\n' || c == '\r'

/-- Skip JSON whitespace. -/
def skipWs (cs : List Char) : List Char :=
  cs.dropWhile jsonWs

/-- Decode one UTF-8 sequence whose lead byte is `b` and whose following
bytes start `rest`: the decoded code point and the bytes left over.
Follows the strict `bytes.decode('utf-8')` rules: rejects stray
continuation bytes, overlong encodings, surrogate code points and values
above `U+10FFFF`. -/
def utf8Step (b : Nat) (rest : List Nat) : Option (Char × List Nat) :=
  if b < 0x80 then some (Char.ofNat b, rest)
  else if b < 0xC2 then none
  else if b < 0xE0 then
    match rest with
    | b1 :: rest1 =>
      if 0x80 ≤ b1 ∧ b1 < 0xC0 then
        some (Char.ofNat ((b - 0xC0) * 0x40 + (b1 - 0x80)), rest1)
      else none
    | [] => none
  else if b < 0xF0 then
    match rest with
    | b1 :: b2 :: rest2 =>
      if (0x80 ≤ b1 ∧ b1 < 0xC0) ∧ (0x80 ≤ b2 ∧ b2 < 0xC0) then
        let cp := (b - 0xE0) * 0x1000 + (b1 - 0x80) * 0x40 + (b2 - 0x80)
        if cp < 0x800 ∨ (0xD800 ≤ cp ∧ cp < 0xE000) then none
        else some (Char.ofNat cp, rest2)
      else none
    | _ => none
  else if b < 0xF5 then
    match rest with
    | b1 :: b2 :: b3 :: rest3 =>
      if (0x80 ≤ b1 ∧ b1 < 0xC0) ∧ (0x80 ≤ b2 ∧ b2 < 0xC0) ∧
          (0x80 ≤ b3 ∧ b3 < 0xC0) then
        let cp := (b - 0xF0) * 0x40000 + (b1 - 0x80) * 0x1000 +
          (b2 - 0x80) * 0x40 + (b3 - 0x80)
        if cp < 0x10000 ∨ 0x10FFFF < cp then none
        else some (Char.ofNat cp, rest3)
      else none
    | _ => none
  else none

/-- Iterate `utf8Step` over the byte list.  Each step consumes at least
the lead byte, so fuel equal to the length of the input suffices. -/
def utf8DecodeAux : Nat → List Nat → Option (List Char)
  | _, [] => some []
  | 0, _ :: _ => none
  | f + 1, b :: rest =>
    match utf8Step b rest with
    | some (c, rest2) => (utf8DecodeAux f rest2).map (fun t => c :: t)
    | none => none

/-- Strict UTF-8 decoding of a byte sequence to code points, as done by
`bytes.decode('utf-8')`. -/
def utf8Decode (data : List Nat) : Option (List Char) :=
  utf8DecodeAux data.length data

/-- `bytes.decode('ascii')`: succeeds exactly when every byte is below
`0x80`. -/
def asciiDecode (data : List Nat) : Option (List Char) :=
  if data.all (fun b => b < 0x80) then some (data.map Char.ofNat)
  else none

/-- `bytes.decode('latin-1')`: total; each byte maps to the code point of
the same value. -/
def latin1Decode (data : List Nat) : Option (List Char) :=
  some (data.map Char.ofNat)

/-- One byte of `bytes.decode('cp1252')`: bytes `0x80`–`0x9F` map through
the Windows-1252 table, five of them (`0x81`, `0x8D`, `0x8F`, `0x90`,
`0x9D`) are undefined and raise; all other bytes map to themselves. -/
def cp1252Char (b : Nat) : Option Nat :=
  if b < 0x80 ∨ 0xA0 ≤ b then some b
  else if b = 0x80 then some 0x20AC
  else if b = 0x82 then some 0x201A
  else if b = 0x83 then some 0x0192
  else if b = 0x84 then some 0x201E
  else if b = 0x85 then some 0x2026
  else if b = 0x86 then some 0x2020
  else if b = 0x87 then some 0x2021
  else if b = 0x88 then some 0x02C6
  else if b = 0x89 then some 0x2030
  else if b = 0x8A then some 0x0160
  else if b = 0x8B then some 0x2039
  else if b = 0x8C then some 0x0152
  else if b = 0x8E then some 0x017D
  else if b = 0x91 then some 0x2018
  else if b = 0x92 then some 0x2019
  else if b = 0x93 then some 0x201C
  else if b = 0x94 then some 0x201D
  else if b = 0x95 then some 0x2022
  else if b = 0x96 then some 0x2013
  else if b = 0x97 then some 0x2014
  else if b = 0x98 then some 0x02DC
  else if b = 0x99 then some 0x2122
  else if b = 0x9A then some 0x0161
  else if b = 0x9B then some 0x203A
  else if b = 0x9C then some 0x0153
  else if b = 0x9E then some 0x017E
  else none

/-- `bytes.decode('cp1252')`. -/
def cp1252Decode (data : List Nat) : Option (List Char) :=
  (data.mapM cp1252Char).map (fun l => l.map Char.ofNat)

/-- `bytes.decode('iso-8859-1')`: an alias of Latin-1. -/
def iso8859Decode (data : List Nat) : Option (List Char) :=
  some (data.map Char.ofNat)

/-- `DataProcessor.try_decode_text`: try the encodings
`['utf-8', 'ascii', 'latin-1', 'cp1252', 'iso-8859-1']` in order and
return the first decoding that succeeds (`None` when all fail — which
can never happen, since `latin-1` is total). -/
def try_decode_text (data : List Nat) : Option (List Char) :=
  (utf8Decode data).orElse fun _ =>
    (asciiDecode data).orElse fun _ =>
      (latin1Decode data).orElse fun _ =>
        (cp1252Decode data).orElse fun _ =>
          iso8859Decode data

/-- Parsed JSON values, as produced by the model of `json.loads`.
Numbers keep their literal text (Python would convert them with
`int`/`float`); strings are kept as lists of code points (Python's
`json` accepts lone surrogates, which `Char` cannot carry). -/
inductive Json where
  | null
  | bool (b : Bool)
  | num (lit : List Char)
  | str (codes : List Nat)
  | arr (elems : List Json)
  | obj (members : List (List Nat × Json))

/-- Whether a JSON value is a structured value (object or array). -/
def Json.isStructured : Json → Bool
  | Json.obj _ => true
  | Json.arr _ => true
  | _ => false

/-- Value of a hexadecimal digit, as accepted by the `\uXXXX` escape. -/
def hexVal (c : Char) : Option Nat :=
  if c.isDigit then some (c.toNat - 48)
  else if 'a' ≤ c ∧ c ≤ 'f' then some (c.toNat - 87)
  else if 'A' ≤ c ∧ c ≤ 'F' then some (c.toNat - 55)
  else none

/-- Model of `json.decoder.py_scanstring` after the opening quote
(strict mode): literal characters below `0x20` are rejected, the
short escapes and `\uXXXX` escapes are decoded, and a high-surrogate
escape followed by a low-surrogate escape is combined; a lone surrogate
escape is kept as its code point.  The fuel argument bounds the
recursion; every step consumes at least one character, so
`length + 1` fuel suffices. -/
def scanString : Nat → List Char → Option (List Nat × List Char)
  | 0, _ => none
  | _ + 1, [] => none
  | f + 1, c :: rest =>
    if c == '"' then some ([], rest)
    else if c == '\\' then
      match rest with
      | [] => none
      | e :: rest2 =>
        if e == 'u' then
          match rest2 with
          | h1 :: h2 :: h3 :: h4 :: rest3 =>
            match hexVal h1, hexVal h2, hexVal h3, hexVal h4 with
            | some a, some b, some c1, some d =>
              let u := ((a * 16 + b) * 16 + c1) * 16 + d
              if 0xD800 ≤ u ∧ u ≤ 0xDBFF then
                match rest3 with
                | '\\' :: 'u' :: g1 :: g2 :: g3 :: g4 :: rest4 =>
                  match hexVal g1, hexVal g2, hexVal g3, hexVal g4 with
                  | some a2, some b2, some c2, some d2 =>
                    let u2 := ((a2 * 16 + b2) * 16 + c2) * 16 + d2
                    if 0xDC00 ≤ u2 ∧ u2 ≤ 0xDFFF then
                      match scanString f rest4 with
                      | some (t, r) =>
                        some ((0x10000 + (u - 0xD800) * 0x400 +
                          (u2 - 0xDC00)) :: t, r)
                      | none => none
                    else
                      match scanString f rest3 with
                      | some (t, r) => some (u :: t, r)
                      | none => none
                  | _, _, _, _ => none
                | _ =>
                  match scanString f rest3 with
                  | some (t, r) => some (u :: t, r)
                  | none => none
              else
                match scanString f rest3 with
                | some (t, r) => some (u :: t, r)
                | none => none
            | _, _, _, _ => none
          | _ => none
        else
          let m : Option Nat :=
            if e == '"' then some 34
            else if e == '\\' then some 92
            else if e == '/' then some 47
            else if e == 'b' then some 8
            else if e == 'f' then some 12
            else if e == 'n' then some 10
            else if e == 'r' then some 13
            else if e == 't' then some 9
            else none
          match m with
          | some code =>
            match scanString f rest2 with
            | some (t, r) => some (code :: t, r)
            | none => none
          | none => none
    else if c.toNat < 0x20 then none
    else
      match scanString f rest with
      | some (t, r) => some (c.toNat :: t, r)
      | none => none

/-- A JSON string body (after the opening quote). -/
def parseStringBody (cs : List Char) : Option (List Nat × List Char) :=
  scanString (cs.length + 1) cs

/-- The unsigned integer part of a JSON number
(regex `(?:0|[1-9]\d*)`): a lone `0`, or a nonzero digit followed by a
maximal run of digits. -/
def parseUInt : List Char → Option (List Char × List Char)
  | [] => none
  | c :: rest =>
    if c == '0' then some (['0'], rest)
    else if c.isDigit then
      some (c :: rest.takeWhile Char.isDigit, rest.dropWhile Char.isDigit)
    else none

/-- The signed integer part of a JSON number (regex `-?(?:0|[1-9]\d*)`). -/
def parseIntLit : List Char → Option (List Char × List Char)
  | '-' :: rest =>
    match parseUInt rest with
    | some (ds, r) => some ('-' :: ds, r)
    | none => none
  | cs => parseUInt cs

/-- The optional fraction part of a JSON number (regex `(\.\d+)?`);
returns the consumptionless pair when the group does not match. -/
def parseFracLit (cs : List Char) : List Char × List Char :=
  match cs with
  | '.' :: rest =>
    match rest.takeWhile Char.isDigit with
    | [] => ([], cs)
    | ds => ('.' :: ds, rest.dropWhile Char.isDigit)
  | _ => ([], cs)

/-- The optional exponent part of a JSON number
(regex `([eE][-+]?\d+)?`). -/
def parseExpLit (cs : List Char) : List Char × List Char :=
  match cs with
  | e :: rest =>
    if e == 'e' || e == 'E' then
      match rest with
      | s :: rest2 =>
        if s == '+' || s == '-' then
          match rest2.takeWhile Char.isDigit with
          | [] => ([], cs)
          | ds => (e :: s :: ds, rest2.dropWhile Char.isDigit)
        else
          match rest.takeWhile Char.isDigit with
          | [] => ([], cs)
          | ds => (e :: ds, rest.dropWhile Char.isDigit)
      | [] => ([], cs)
    else ([], cs)
  | [] => ([], cs)

/-- A JSON number literal, following `json.scanner.NUMBER_RE`: the
matched text and the remaining input. -/
def parseNumber (cs : List Char) : Option (List Char × List Char) :=
  match parseIntLit cs with
  | none => none
  | some (ip, r1) =>
    let (fp, r2) := parseFracLit r1
    let (ep, r3) := parseExpLit r2
    some (ip ++ fp ++ ep, r3)

/-- The non-container JSON values recognised by `json.scanner`:
the keywords `true`, `false`, `null`, the constants `NaN`, `Infinity`,
`-Infinity`, and numbers. -/
def parseLit (cs : List Char) : Option (Json × List Char) :=
  if List.isPrefixOf ['t', 'r', 'u', 'e'] cs then
    some (Json.bool true, cs.drop 4)
  else if List.isPrefixOf ['f', 'a', 'l', 's', 'e'] cs then
    some (Json.bool false, cs.drop 5)
  else if List.isPrefixOf ['n', 'u', 'l', 'l'] cs then
    some (Json.null, cs.drop 4)
  else if List.isPrefixOf ['N', 'a', 'N'] cs then
    some (Json.num ['N', 'a', 'N'], cs.drop 3)
  else if List.isPrefixOf ['I', 'n', 'f', 'i', 'n', 'i', 't', 'y'] cs then
    some (Json.num ['I', 'n', 'f', 'i', 'n', 'i', 't', 'y'], cs.drop 8)
  else if List.isPrefixOf ['-', 'I', 'n', 'f', 'i', 'n', 'i', 't', 'y'] cs then
    some (Json.num ['-', 'I', 'n', 'f', 'i', 'n', 'i', 't', 'y'], cs.drop 9)
  else
    match parseNumber cs with
    | some (ds, r) => some (Json.num ds, r)
    | none => none

/-- The three recursion modes of the JSON scanner: a value, the members
of an object after its `{` (CPython `JSONObject`), and the elements of
an array after its `[` (CPython `JSONArray`). -/
inductive PMode where
  | value
  | members
  | elems

/-- Intermediate results of the JSON scanner, one per mode. -/
inductive POut where
  | v (j : Json)
  | ms (l : List (List Nat × Json))
  | es (l : List Json)

/-- The recursive JSON scanner, modelling `json.scanner.py_make_scanner`
with `json.decoder.JSONObject` and `json.decoder.JSONArray` (strict
mode, default hooks).  The fuel argument bounds the recursion depth;
every unit of fuel spent is matched by input consumed, so the fuel
chosen by `json_loads` cannot run out on accepted input. -/
def parseRun : Nat → PMode → List Char → Option (POut × List Char)
  | 0, _, _ => none
  | f + 1, PMode.value, cs =>
    match cs with
    | [] => none
    | c :: rest =>
      if c == '{' then
        match skipWs rest with
        | '}' :: r2 => some (POut.v (Json.obj []), r2)
        | cs2 =>
          match parseRun f PMode.members cs2 with
          | some (POut.ms ms, r) => some (POut.v (Json.obj ms), r)
          | _ => none
      else if c == '[' then
        match skipWs rest with
        | ']' :: r2 => some (POut.v (Json.arr []), r2)
        | cs2 =>
          match parseRun f PMode.elems cs2 with
          | some (POut.es es, r) => some (POut.v (Json.arr es), r)
          | _ => none
      else if c == '"' then
        match parseStringBody rest with
        | some (s, r) => some (POut.v (Json.str s), r)
        | none => none
      else
        match parseLit (c :: rest) with
        | some (j, r) => some (POut.v j, r)
        | none => none
  | f + 1, PMode.members, cs =>
    match cs with
    | '"' :: rest =>
      match parseStringBody rest with
      | some (k, r1) =>
        (match skipWs r1 with
         | ':' :: r2 =>
           (match parseRun f PMode.value (skipWs r2) with
            | some (POut.v v, r3) =>
              (match skipWs r3 with
               | ',' :: r4 =>
                 (match skipWs r4 with
                  | '"' :: r5 =>
                    (match parseRun f PMode.members ('"' :: r5) with
                     | some (POut.ms ms, r6) =>
                       some (POut.ms ((k, v) :: ms), r6)
                     | _ => none)
                  | _ => none)
               | '}' :: r4 => some (POut.ms [(k, v)], r4)
               | _ => none)
            | _ => none)
         | _ => none)
      | none => none
    | _ => none
  | f + 1, PMode.elems, cs =>
    match parseRun f PMode.value cs with
    | some (POut.v v, r1) =>
      (match skipWs r1 with
       | ']' :: r2 => some (POut.es [v], r2)
       | ',' :: r2 =>
         (match parseRun f PMode.elems (skipWs r2) with
          | some (POut.es es, r3) => some (POut.es (v :: es), r3)
          | _ => none)
       | _ => none)
    | _ => none

/-- One JSON value read from the head of the input. -/
def parseValue (fuel : Nat) (cs : List Char) : Option (Json × List Char) :=
  match parseRun fuel PMode.value cs with
  | some (POut.v j, r) => some (j, r)
  | _ => none

/-- Model of `json.loads`: skip leading whitespace, read one value, and
require that only whitespace remains. -/
def json_loads (cs : List Char) : Option Json :=
  match parseValue (2 * cs.length + 2) (skipWs cs) with
  | some (v, rest) => if skipWs rest = [] then some v else none
  | none => none

/-- Word characters for the `\b` assertion of Python `re`, modelled over
the ASCII range (letters, digits and underscore).  Python's `\b` for
`str` patterns is Unicode-aware (a letter such as `é` is a word
character), so this model coincides with `re` exactly on ASCII text;
the theorem that relies on the email check failing therefore restricts
its scope to ASCII decoded texts. -/
def isWordChar (c : Char) : Bool :=
  c.isAlphanum || c == '_'

/-- The local-part class `[A-Za-z0-9._%+-]` of the email regex. -/
def emailLocalChar (c : Char) : Bool :=
  c.isAlphanum || c == '.' || c == '_' || c == '%' || c == '+' || c == '-'

/-- The domain class `[A-Za-z0-9.-]` of the email regex. -/
def emailDomChar (c : Char) : Bool :=
  c.isAlphanum || c == '.' || c == '-'

/-- The top-level-domain class `[A-Z|a-z]` of the email regex (the
literal `|` is part of the character class). -/
def emailTldChar (c : Char) : Bool :=
  c.isAlpha || c == '|'

/-- After at least two TLD characters whose last one is `prev`: either
the trailing `\b` holds here, or the TLD extends by one character. -/
def emailTldExt (prev : Char) : List Char → Bool
  | [] => isWordChar prev
  | c :: rest =>
    (isWordChar prev != isWordChar c) || (emailTldChar c && emailTldExt c rest)

/-- After `@` and at least one domain character: either the literal `.`
followed by at least two TLD characters comes next, or one more domain
character is consumed. -/
def emailDomRest : List Char → Bool
  | [] => false
  | c :: rest =>
    (c == '.' &&
      (match rest with
       | t1 :: t2 :: rest2 =>
         emailTldChar t1 && emailTldChar t2 && emailTldExt t2 rest2
       | _ => false))
    || (emailDomChar c && emailDomRest rest)

/-- Right after the `@`: the domain needs at least one character. -/
def emailAfterAt : List Char → Bool
  | [] => false
  | c :: rest => emailDomChar c && emailDomRest rest

/-- After at least one local-part character: consume local characters up
to the mandatory `@` (the `@` is not in the local class, so the run is
forced). -/
def emailAfterLocal : List Char → Bool
  | [] => false
  | c :: rest =>
    if c == '@' then emailAfterAt rest
    else emailLocalChar c && emailAfterLocal rest

/-- Existence of a match of
`\b[A-Za-z0-9._%+-]+@[A-Za-z0-9.-]+\.[A-Z|a-z]{2,}\b` anywhere in the
text, as decided by `re.search`; `prevW` records whether the character
before the current position is a word character (false at the start of
the string).  Through `isWordChar`, the `\b` boundaries are computed
with the ASCII word class, so this matcher agrees with `re.search`
exactly on ASCII text (on non-ASCII text the Unicode-aware `\b` can
accept boundaries this model rejects). -/
def emailSearch (prevW : Bool) : List Char → Bool
  | [] => false
  | c :: rest =>
    (emailLocalChar c && (prevW != isWordChar c) && emailAfterLocal rest)
    || emailSearch (isWordChar c) rest

/-- `://` followed by at least one non-whitespace character, as required
after the scheme by the URL regex `https?://[^\s]+`. -/
def urlAfterScheme : List Char → Bool
  | ':' :: '/' :: '/' :: c :: _ => !pyIsSpace c
  | _ => false

/-- A match of the URL regex starting exactly at the head of the list:
the literal `http`, an optional `s`, then `://` and a non-space
character. -/
def urlAt : List Char → Bool
  | 'h' :: 't' :: 't' :: 'p' :: rest =>
    urlAfterScheme rest ||
      (match rest with
       | 's' :: rest2 => urlAfterScheme rest2
       | _ => false)
  | _ => false

/-- Existence of a match of `https?://[^\s]+` anywhere in the text, as
decided by `re.search`. -/
def urlSearch : List Char → Bool
  | [] => false
  | c :: rest => urlAt (c :: rest) || urlSearch rest

/-- Model of Python `text.split('\n')`: splitting the empty string gives
`[""]`, and every newline separates two (possibly empty) fields. -/
def pySplitNl : List Char → List (List Char)
  | [] => [[]]
  | c :: rest =>
    if c == '\n' then [] :: pySplitNl rest
    else
      match pySplitNl rest with
      | [] => [[c]]
      | l :: ls => (c :: l) :: ls

/-- The CSV test of `detect_protocol`: the text contains a comma and a
newline, splits into more than one line, and each of the first three
lines that is non-blank after stripping contains a comma. -/
def csvCheck (text : List Char) : Bool :=
  text.contains ',' && text.contains '\n' &&
    (let lines := pySplitNl text
     decide (1 < lines.length) &&
       (lines.take 3).all
         (fun l => (pyStrip l).isEmpty || l.contains ','))

/-- The HTTP method tokens tested by
`text_lower.startswith(('get ', 'post ', 'put ', 'delete ', 'head ',
'options ', 'patch '))`. -/
def httpMethods : List (List Char) :=
  [['g', 'e', 't', ' '],
   ['p', 'o', 's', 't', ' '],
   ['p', 'u', 't', ' '],
   ['d', 'e', 'l', 'e', 't', 'e', ' '],
   ['h', 'e', 'a', 'd', ' '],
   ['o', 'p', 't', 'i', 'o', 'n', 's', ' '],
   ['p', 'a', 't', 'c', 'h', ' ']]

/-- `str.startswith` with a tuple of alternatives. -/
def startsWithAny (ps : List (List Char)) (s : List Char) : Bool :=
  ps.any (fun p => List.isPrefixOf p s)

/-- The XML test: `text_lower.startswith('<?xml') or
text_lower.startswith('<')`. -/
def xmlStart (tl : List Char) : Bool :=
  List.isPrefixOf ['<', '?', 'x', 'm', 'l'] tl || List.isPrefixOf ['<'] tl

/-- The Python `in` test on byte strings: does `needle` occur as a
contiguous run inside the list? -/
def bytesContain (needle : List Nat) : List Nat → Bool
  | [] => List.isPrefixOf needle []
  | b :: rest => List.isPrefixOf needle (b :: rest) || bytesContain needle rest

/-- The binary-signature table of `detect_protocol` (lines 88–107 of
`main.py`): byte-prefix matches tried in order, `binary` when none
match. -/
def binarySniff (data : List Nat) : String :=
  if List.isPrefixOf [0x89, 0x50, 0x4E, 0x47, 0x0D, 0x0A, 0x1A, 0x0A] data
    then "png"
  else if List.isPrefixOf [0xFF, 0xD8, 0xFF] data then "jpeg"
  else if List.isPrefixOf [0x47, 0x49, 0x46, 0x38] data then "gif"
  else if List.isPrefixOf [0x25, 0x50, 0x44, 0x46] data then "pdf"
  else if List.isPrefixOf [0x50, 0x4B, 0x03, 0x04] data then "zip"
  else if List.isPrefixOf [0x1F, 0x8B] data then "gzip"
  else if List.isPrefixOf [0x42, 0x4D] data then "bmp"
  else if List.isPrefixOf [0x52, 0x49, 0x46, 0x46] data &&
      bytesContain [0x57, 0x41, 0x56, 0x45] (data.take 12) then "wav"
  else if List.isPrefixOf
      [0x00, 0x00, 0x00, 0x18, 0x66, 0x74, 0x79, 0x70, 0x6D, 0x70, 0x34]
      data ||
    List.isPrefixOf [0x00, 0x00, 0x00, 0x1C, 0x66, 0x74, 0x79, 0x70] data
    then "mp4"
  else "binary"

/-- `DataProcessor.detect_protocol`: empty data is `empty`; data that
decodes to a non-empty text goes through the ordered textual checks
(HTTP method prefix, JSON, XML prefix, email regex, URL regex, CSV,
otherwise `text`); only data whose decoding is falsy reaches the binary
signature table.  The prefix checks use the lowercased and stripped
text, while the email, URL and CSV checks use the original decoded
text, exactly as in the source. -/
def detect_protocol (data : List Nat) : String :=
  if data = [] then "empty"
  else
    match try_decode_text data with
    | some text =>
      if text = [] then binarySniff data
      else
        let textLower := pyStrip (text.map pyLowerChar)
        if startsWithAny httpMethods textLower then "http"
        else if (List.isPrefixOf ['{'] textLower ||
            List.isPrefixOf ['['] textLower) &&
            (json_loads text).isSome then "json"
        else if xmlStart textLower then "xml"
        else if emailSearch false text then "email"
        else if urlSearch text then "url"
        else if csvCheck text then "csv"
        else "text"
    | none => binarySniff data

/-- `binascii.hexlify`: two lowercase hex digits per byte. -/
def hexlify (data : List Nat) : String :=
  String.mk
    ((data.map (fun b =>
      [Char.ofNat (if b / 16 < 10 then 48 + b / 16 else 87 + b / 16),
       Char.ofNat (if b % 16 < 10 then 48 + b % 16 else 87 + b % 16)])).flatten)

/-- `DataProcessor.format_binary_data`: a hex dump of at most `maxBytes`
bytes, annotated with the total length when truncated. -/
def format_binary_data (data : List Nat) (maxBytes : Nat) : String :=
  if data.length ≤ maxBytes then "hex: " ++ hexlify data
  else
    "hex (first " ++ toString maxBytes ++ " bytes): " ++
      hexlify (data.take maxBytes) ++ "... (total: " ++
      toString data.length ++ " bytes)"

/-- The result dictionary of `DataProcessor.process_data`; keys that a
branch does not set are `none`. -/
structure ProcResult where
  type : String
  size : Option Nat
  timestamp : Option Nat
  content : Option String
  parsed_json : Option Json
  message : Option String

/-- The textual-format list of `process_data` (line 136 of `main.py`). -/
def textualTags : List String :=
  ["text", "json", "xml", "http", "email", "url", "csv"]

/-- `DataProcessor.process_data`: classify the data and build the result
record.  `now` is the value of `asyncio.get_event_loop().time()` at the
moment of the call, stored in the `timestamp` field. -/
def process_data (data : List Nat) (now : Nat) : ProcResult :=
  if data = [] then
    { type := "empty", size := none, timestamp := none, content := none,
      parsed_json := none, message := some "No data received" }
  else
    let protocol := detect_protocol data
    if protocol ∈ textualTags then
      match try_decode_text data with
      | some text =>
        if text = [] then
          { type := protocol, size := some data.length,
            timestamp := some now, content := none, parsed_json := none,
            message := none }
        else
          { type := protocol, size := some data.length,
            timestamp := some now, content := some (String.mk text),
            parsed_json := if protocol = "json" then json_loads text
              else none,
            message := none }
      | none =>
        { type := protocol, size := some data.length, timestamp := some now,
          content := none, parsed_json := none, message := none }
    else
      { type := protocol, size := some data.length, timestamp := some now,
        content := some (format_binary_data data 64), parsed_json := none,
        message := none }

/-- The rolling-buffer cap of `handle_tcp_client` (`1024 * 1024`, line
198 of `main.py`). -/
def BUFFER_CAP : Nat := 1024 * 1024

/-- One transport event seen by the read loop of `handle_tcp_client`:
`recv data now` is a completed `reader.read(4096)` delivering `data`
(the empty list models the zero-length read of a closed peer) at event
loop time `now`; `timeout` is an expired `asyncio.wait_for`;
`rerror` is an exception raised by the read. -/
inductive Event where
  | recv (data : List Nat) (now : Nat)
  | timeout
  | rerror

/-- The observable actions of the session handler, in program order:
log records written to the logger and lines written to the peer. -/
inductive Record where
  | welcome
  | dataLog (msgNum : Nat) (pd : ProcResult)
  | ack (fmt : String) (size : Option Nat) (msgNum : Nat)
  | bufferSummary (totalSize : Nat) (msgCount : Nat) (protocols : List String)
  | timeoutNotice
  | clientClosed
  | readError
  | sessionSummary (totalMessages : Nat) (totalDataSize : Nat)
  | disconnected
  | closed

/-- The mutable per-connection state of `handle_tcp_client`:
`data_buffer` and `message_count`. -/
structure SessState where
  buffer : List Nat
  count : Nat

/-- The state just before the read loop: empty buffer, zero messages. -/
def sessInit : SessState := ⟨[], 0⟩

/-- The `protocols_detected` list of the buffer summary (line 204):
`detect_protocol` applied to the 1 KiB slices at offsets
`range(0, min(len(buffer), 10240), 1024)`, deduplicated (Python builds a
`set`; the model keeps the first occurrence of each protocol). -/
def protocolsDetected (buffer : List Nat) : List String :=
  ((((List.range 10).map (fun i => 1024 * i)).filter
      (fun o => o < min buffer.length 10240)).map
    (fun o => detect_protocol ((buffer.drop o).take 1024))).eraseDups

/-- One iteration of the read loop of `handle_tcp_client`: the next
state, the records emitted during the iteration in order, and whether
the loop exits (`break`).  A zero-length read logs and breaks; a
non-empty read appends to the buffer, increments the counter, processes
and logs the chunk, writes the acknowledgment, and, when the buffer now
exceeds `BUFFER_CAP`, logs a buffer summary and resets the buffer; a
timeout writes the notice and continues; a read error logs and
breaks. -/
def stepEvent (st : SessState) : Event → SessState × List Record × Bool
  | Event.timeout => (st, [Record.timeoutNotice], false)
  | Event.rerror => (st, [Record.readError], true)
  | Event.recv d now =>
    if d = [] then (st, [Record.clientClosed], true)
    else
      let buf1 := st.buffer ++ d
      let c1 := st.count + 1
      let pd := process_data d now
      let recs := [Record.dataLog c1 pd, Record.ack pd.type pd.size c1]
      if BUFFER_CAP < buf1.length then
        (⟨[], c1⟩,
          recs ++ [Record.bufferSummary buf1.length c1
            (protocolsDetected buf1)],
          false)
      else (⟨buf1, c1⟩, recs, false)

/-- The read loop over a trace of events: final state, emitted records,
and whether the loop exited via `break` within the trace. -/
def runLoop : SessState → List Event → SessState × List Record × Bool
  | st, [] => (st, [], false)
  | st, e :: rest =>
    let r := stepEvent st e
    if r.2.2 then (r.1, r.2.1, true)
    else
      let r2 := runLoop r.1 rest
      (r2.1, r.2.1 ++ r2.2.1, r2.2.2)

/-- The session states observable at the read-loop boundaries: the state
before the first iteration and after each executed iteration. -/
def loopStates : SessState → List Event → List SessState
  | st, [] => [st]
  | st, e :: rest =>
    let r := stepEvent st e
    st :: (if r.2.2 then [r.1] else loopStates r.1 rest)

/-- The whole of `handle_tcp_client` for a trace of transport events:
the welcome line, the loop records, and the `finally` block — a session
summary exactly when at least one message was processed, the
disconnect log, and the transport release. -/
def runSession (evs : List Event) : List Record :=
  let r := runLoop sessInit evs
  Record.welcome ::
    r.2.1 ++
      (if 0 < r.1.count then
        [Record.sessionSummary r.1.count r.1.buffer.length]
      else []) ++
      [Record.disconnected, Record.closed]

/-- The number of non-empty reads delivered before the loop exits. -/
def nonEmptyRecvCount : List Event → Nat
  | [] => 0
  | Event.recv d _ :: rest =>
    if d = [] then 0 else nonEmptyRecvCount rest + 1
  | Event.timeout :: rest => nonEmptyRecvCount rest
  | Event.rerror :: _ => 0

/-- Whether an event is an idle timeout. -/
def isTimeoutEvent : Event → Bool
  | Event.timeout => true
  | _ => false

/-- Whether a record is the idle-timeout notice line. -/
def isTimeoutNotice : Record → Bool
  | Record.timeoutNotice => true
  | _ => false

/-- Whether a record is a buffer summary. -/
def isBufferSummary : Record → Bool
  | Record.bufferSummary _ _ _ => true
  | _ => false

/-- Whether a record is a session summary. -/
def isSessionSummary : Record → Bool
  | Record.sessionSummary _ _ => true
  | _ => false

/-- Whether a record list contains a buffer summary. -/
def hasBufferSummary (rs : List Record) : Bool :=
  rs.any isBufferSummary

/-- Whether a record list contains a session summary. -/
def hasSessionSummary (rs : List Record) : Bool :=
  rs.any isSessionSummary

/-- A trace with the idle-timeout events removed. -/
def dropTimeouts (evs : List Event) : List Event :=
  evs.filter (fun e => !isTimeoutEvent e)

/-- A successful UTF-8 decoding of a non-empty byte sequence is a
non-empty text: every decoded sequence prepends a character. -/
lemma utf8Decode_cons_ne_nil (b : Nat) (rest : List Nat) (t : List Char)
    (h : utf8Decode (b :: rest) = some t) : t ≠ [] := by
  rintro rfl
  unfold utf8Decode at h
  rw [List.length_cons] at h
  simp only [utf8DecodeAux] at h
  split at h
  · rcases Option.map_eq_some'.mp h with ⟨a, ha, hcons⟩
    simp at hcons
  · exact Option.noConfusion h

/-- A successful ASCII decoding is the bytewise code-point map. -/
lemma asciiDecode_some_eq (data : List Nat) (t : List Char)
    (h : asciiDecode data = some t) : t = data.map Char.ofNat := by
  unfold asciiDecode at h
  split at h <;> simp_all

/-- `try_decode_text` always succeeds, because the `latin-1` fallback is
total. -/
lemma try_decode_text_isSome (data : List Nat) :
    (try_decode_text data).isSome = true := by
  unfold try_decode_text
  cases utf8Decode data <;> cases asciiDecode data <;>
    simp [latin1Decode, Option.orElse]

/-- The decoding of a non-empty payload is a non-empty text. -/
lemma try_decode_text_ne_nil (data : List Nat) (t : List Char)
    (hd : data ≠ []) (h : try_decode_text data = some t) : t ≠ [] := by
  cases data with
  | nil => exact absurd rfl hd
  | cons b rest =>
    unfold try_decode_text at h
    cases hu : utf8Decode (b :: rest) with
    | some u =>
      rw [hu] at h
      simp [Option.orElse] at h
      exact h ▸ utf8Decode_cons_ne_nil b rest u hu
    | none =>
      rw [hu] at h
      cases ha : asciiDecode (b :: rest) with
      | some a =>
        rw [ha] at h
        simp [Option.orElse] at h
        have := asciiDecode_some_eq _ _ ha
        subst h
        simp [this]
      | none =>
        rw [ha] at h
        simp [Option.orElse, latin1Decode] at h
        subst h
        simp

/-- Decoding the empty payload yields the empty text. -/
lemma try_decode_text_nil : try_decode_text [] = some [] := rfl

/-- `json.loads` of the empty string fails. -/
lemma json_loads_nil : json_loads [] = none := rfl

/-- For a non-empty decoded text, `detect_protocol` takes the textual
branch and returns one of the seven textual tags. -/
lemma detect_textual (data : List Nat) (t : List Char) (hd : data ≠ [])
    (h : try_decode_text data = some t) (ht : t ≠ []) :
    detect_protocol data ∈ textualTags := by
  unfold detect_protocol
  simp only [if_neg hd, h, if_neg ht]
  split_ifs <;> simp [textualTags]

/-- JSON whitespace characters are fixed by the lowercasing model. -/
lemma pyLowerChar_of_jsonWs (c : Char) (h : jsonWs c = true) :
    pyLowerChar c = c := by
  simp only [jsonWs, Bool.or_eq_true, beq_iff_eq] at h
  rcases h with ((rfl | rfl) | rfl) | rfl <;> rfl

/-- JSON whitespace characters are whitespace for `str.strip`. -/
lemma pyIsSpace_of_jsonWs (c : Char) (h : jsonWs c = true) :
    pyIsSpace c = true := by
  simp only [jsonWs, Bool.or_eq_true, beq_iff_eq] at h
  rcases h with ((rfl | rfl) | rfl) | rfl <;> rfl

/-- Dropping a satisfying prefix continues past an all-satisfying block. -/
lemma dropWhile_all_append (p : Char → Bool) (ws l : List Char)
    (h : ∀ x ∈ ws, p x = true) :
    List.dropWhile p (ws ++ l) = List.dropWhile p l := by
  induction ws with
  | nil => rfl
  | cons a ws ih =>
    have ha := h a (List.mem_cons_self a ws)
    simp only [List.cons_append, List.dropWhile_cons, ha, if_true]
    exact ih (fun x hx => h x (List.mem_cons_of_mem a hx))

/-- `dropWhile` never removes a final element that fails the predicate. -/
lemma dropWhile_append_singleton (p : Char → Bool) (l : List Char)
    (c : Char) (hc : p c = false) :
    ∃ l2, List.dropWhile p (l ++ [c]) = l2 ++ [c] := by
  induction l with
  | nil => exact ⟨[], by simp [List.dropWhile_cons, hc]⟩
  | cons a l ih =>
    by_cases ha : p a = true
    · simpa [List.dropWhile_cons, ha] using ih
    · exact ⟨a :: l, by simp [List.dropWhile_cons,
        Bool.eq_false_iff.mpr ha]⟩

/-- Stripping a text made of whitespace, a non-whitespace character and a
tail keeps that character at the head. -/
lemma pyStrip_head (ws t : List Char) (c : Char)
    (hws : ∀ x ∈ ws, pyIsSpace x = true) (hc : pyIsSpace c = false) :
    ∃ t2, pyStrip (ws ++ c :: t) = c :: t2 := by
  unfold pyStrip
  rw [dropWhile_all_append pyIsSpace ws (c :: t) hws]
  rw [List.dropWhile_cons, hc]
  simp only [Bool.false_eq_true, if_false, List.reverse_cons]
  obtain ⟨l2, hl2⟩ :=
    dropWhile_append_singleton pyIsSpace t.reverse c hc
  rw [hl2]
  exact ⟨l2.reverse, by simp⟩

/-- Mapping a function that fixes every element of a list is the
identity on it. -/
lemma map_id_of_mem (f : Char → Char) (l : List Char)
    (h : ∀ x ∈ l, f x = x) : l.map f = l := by
  induction l with
  | nil => rfl
  | cons a l ih =>
    simp [h a (List.mem_cons_self a l),
      ih (fun x hx => h x (List.mem_cons_of_mem a hx))]

/-- The literal scanner only produces keywords, constants and numbers —
never objects or arrays. -/
lemma parseLit_not_structured (cs : List Char) (j : Json) (r : List Char)
    (h : parseLit cs = some (j, r)) : j.isStructured = false := by
  unfold parseLit at h
  split_ifs at h
  case _ =>
    simp only [Option.some.injEq, Prod.mk.injEq] at h
    obtain ⟨rfl, rfl⟩ := h; rfl
  case _ =>
    simp only [Option.some.injEq, Prod.mk.injEq] at h
    obtain ⟨rfl, rfl⟩ := h; rfl
  case _ =>
    simp only [Option.some.injEq, Prod.mk.injEq] at h
    obtain ⟨rfl, rfl⟩ := h; rfl
  case _ =>
    simp only [Option.some.injEq, Prod.mk.injEq] at h
    obtain ⟨rfl, rfl⟩ := h; rfl
  case _ =>
    simp only [Option.some.injEq, Prod.mk.injEq] at h
    obtain ⟨rfl, rfl⟩ := h; rfl
  case _ =>
    simp only [Option.some.injEq, Prod.mk.injEq] at h
    obtain ⟨rfl, rfl⟩ := h; rfl
  case _ =>
    cases hpn : parseNumber cs with
    | none => rw [hpn] at h; exact Option.noConfusion h
    | some p =>
      obtain ⟨ds, r2⟩ := p
      rw [hpn] at h
      simp only [Option.some.injEq, Prod.mk.injEq] at h
      obtain ⟨⟨rfl, rfl⟩⟩ := h
      rfl

/-- A scanned value in value mode that is an object or an array can only
come from an input whose first character is `{` or `[`. -/
lemma parseRun_value_structured (f : Nat) (cs : List Char) (v : Json)
    (r : List Char) (h : parseRun f PMode.value cs = some (POut.v v, r))
    (hs : v.isStructured = true) :
    ∃ c t, cs = c :: t ∧ (c = '{' ∨ c = '[') := by
  cases f with
  | zero => simp [parseRun] at h
  | succ f =>
    cases cs with
    | nil => simp [parseRun] at h
    | cons c rest =>
      refine ⟨c, rest, rfl, ?_⟩
      by_cases h1 : c = '{'
      · exact Or.inl h1
      by_cases h2 : c = '['
      · exact Or.inr h2
      exfalso
      simp only [parseRun] at h
      rw [if_neg (by simp [h1]), if_neg (by simp [h2])] at h
      by_cases h3 : c = '"'
      · rw [if_pos (by simp [h3])] at h
        cases hsb : parseStringBody rest with
        | none => rw [hsb] at h; exact Option.noConfusion h
        | some p =>
          obtain ⟨s, r2⟩ := p
          rw [hsb] at h
          simp only [Option.some.injEq, Prod.mk.injEq, POut.v.injEq] at h
          obtain ⟨rfl, rfl⟩ := h
          simp [Json.isStructured] at hs
      · rw [if_neg (by simp [h3])] at h
        cases hpl : parseLit (c :: rest) with
        | none => rw [hpl] at h; exact Option.noConfusion h
        | some p =>
          obtain ⟨j, r2⟩ := p
          rw [hpl] at h
          simp only [Option.some.injEq, Prod.mk.injEq, POut.v.injEq] at h
          obtain ⟨rfl, rfl⟩ := h
          rw [parseLit_not_structured _ _ _ hpl] at hs
          exact Bool.noConfusion hs

/-- A structured `json.loads` success forces the lowered and stripped
text to start with `{` or `[`. -/
lemma json_loads_structured (cs : List Char) (v : Json)
    (h : json_loads cs = some v) (hs : v.isStructured = true) :
    ∃ c t2, pyStrip (cs.map pyLowerChar) = c :: t2 ∧ (c = '{' ∨ c = '[') := by
  unfold json_loads at h
  cases hpv : parseValue (2 * cs.length + 2) (skipWs cs) with
  | none => rw [hpv] at h; exact Option.noConfusion h
  | some p =>
    obtain ⟨v2, rest⟩ := p
    rw [hpv] at h
    have h2 : (if skipWs rest = [] then some v2 else none) = some v := h
    have hv : v2 = v := by
      by_cases hr : skipWs rest = []
      · rw [if_pos hr] at h2; exact Option.some.inj h2
      · rw [if_neg hr] at h2; exact Option.noConfusion h2
    subst hv
    unfold parseValue at hpv
    cases hpr : parseRun (2 * cs.length + 2) PMode.value (skipWs cs) with
    | none => rw [hpr] at hpv; exact Option.noConfusion hpv
    | some q =>
      obtain ⟨out, r2⟩ := q
      rw [hpr] at hpv
      cases out with
      | ms l => exact Option.noConfusion hpv
      | es l => exact Option.noConfusion hpv
      | v j =>
        simp only [Option.some.injEq, Prod.mk.injEq] at hpv
        obtain ⟨rfl, rfl⟩ := hpv
        obtain ⟨c, t, hsk, hc⟩ :=
          parseRun_value_structured _ _ _ _ hpr hs
        have hsk2 : cs.dropWhile jsonWs = c :: t := hsk
        have hdecomp : cs.takeWhile jsonWs ++ c :: t = cs := by
          rw [← hsk2, List.takeWhile_append_dropWhile]
        have hws : ∀ x ∈ cs.takeWhile jsonWs, jsonWs x = true := by
          intro x hx
          exact List.mem_takeWhile_imp hx
        have hmap : cs.map pyLowerChar =
            cs.takeWhile jsonWs ++ pyLowerChar c :: t.map pyLowerChar := by
          conv_lhs => rw [← hdecomp]
          rw [List.map_append, List.map_cons, map_id_of_mem pyLowerChar _
            (fun x hx => pyLowerChar_of_jsonWs x (hws x hx))]
        have hcfix : pyLowerChar c = c := by rcases hc with rfl | rfl <;> rfl
        have hcns : pyIsSpace c = false := by rcases hc with rfl | rfl <;> rfl
        rw [hmap, hcfix]
        obtain ⟨t2, ht2⟩ := pyStrip_head (cs.takeWhile jsonWs)
          (t.map pyLowerChar) c
          (fun x hx => pyIsSpace_of_jsonWs x (hws x hx)) hcns
        exact ⟨c, t2, ht2, hc⟩

/-- None of the HTTP method tokens starts with a brace or a bracket. -/
lemma startsWithAny_httpMethods_brace (c : Char) (hc : c = '{' ∨ c = '[')
    (t : List Char) : startsWithAny httpMethods (c :: t) = false := by
  rcases hc with rfl | rfl <;>
    simp [startsWithAny, httpMethods, List.isPrefixOf]

/-- A payload whose decoded text parses as a structured JSON value is
classified `json`: the stripped lowered text starts with `{` or `[`, so
the HTTP check fails and the JSON check fires. -/
lemma detect_json_of_structured (data : List Nat) (text : List Char)
    (v : Json) (hdec : try_decode_text data = some text)
    (hj : json_loads text = some v) (hs : v.isStructured = true) :
    detect_protocol data = "json" := by
  have hdne : data ≠ [] := by
    rintro rfl
    rw [try_decode_text_nil] at hdec
    obtain rfl := Option.some.inj hdec
    rw [json_loads_nil] at hj
    exact Option.noConfusion hj
  have htne : text ≠ [] := by
    rintro rfl
    rw [json_loads_nil] at hj
    exact Option.noConfusion hj
  obtain ⟨c, t2, hstrip, hc⟩ := json_loads_structured text v hj hs
  unfold detect_protocol
  simp only [if_neg hdne, hdec, if_neg htne]
  rw [hstrip, startsWithAny_httpMethods_brace c hc t2]
  simp only [Bool.false_eq_true, if_false]
  have hpref : (List.isPrefixOf ['{'] (c :: t2) ||
      List.isPrefixOf ['['] (c :: t2)) = true := by
    rcases hc with rfl | rfl <;> simp [List.isPrefixOf]
  rw [hpref, hj]
  simp

/-- A payload with a JSON-parsable decoding is non-empty, and so is its
decoded text. -/
lemma json_hyp_ne (data : List Nat) (text : List Char) (v : Json)
    (hdec : try_decode_text data = some text)
    (hj : json_loads text = some v) : data ≠ [] ∧ text ≠ [] := by
  constructor
  · rintro rfl
    rw [try_decode_text_nil] at hdec
    obtain rfl := Option.some.inj hdec
    rw [json_loads_nil] at hj
    exact Option.noConfusion hj
  · rintro rfl
    rw [json_loads_nil] at hj
    exact Option.noConfusion hj

/-- For a structured JSON payload, `process_data` reports type `json`
and attaches the parsed value. -/
lemma process_data_json (data : List Nat) (text : List Char) (v : Json)
    (now : Nat) (hdec : try_decode_text data = some text)
    (hj : json_loads text = some v) (hs : v.isStructured = true) :
    (process_data data now).type = "json" ∧
    (process_data data now).parsed_json = some v := by
  obtain ⟨hdne, htne⟩ := json_hyp_ne data text v hdec hj
  have hdet := detect_json_of_structured data text v hdec hj hs
  unfold process_data
  rw [if_neg hdne]
  simp only [hdet]
  rw [if_pos (by simp [textualTags])]
  simp only [hdec, if_neg htne]
  constructor
  · trivial
  · simp [hj]

/-- Each loop iteration keeps the buffer within the cap: a reset empties
it, and without a reset the appended buffer was within the cap. -/
lemma stepEvent_cap (st : SessState) (e : Event)
    (h : st.buffer.length ≤ BUFFER_CAP) :
    (stepEvent st e).1.buffer.length ≤ BUFFER_CAP := by
  cases e with
  | recv d now =>
    by_cases hd : d = []
    · subst hd; simpa [stepEvent]
    · simp only [stepEvent, if_neg hd]
      split_ifs with hc
      · simp
      · simpa using Nat.le_of_not_lt hc
  | timeout => simpa [stepEvent]
  | rerror => simpa [stepEvent]

/-- Every state observed at a loop boundary keeps the buffer within the
cap, provided the entry state does. -/
lemma loopStates_cap (evs : List Event) : ∀ st : SessState,
    st.buffer.length ≤ BUFFER_CAP →
    ∀ s ∈ loopStates st evs, s.buffer.length ≤ BUFFER_CAP := by
  induction evs with
  | nil =>
    intro st h s hs
    simp only [loopStates, List.mem_singleton] at hs
    exact hs ▸ h
  | cons e rest ih =>
    intro st h s hs
    simp only [loopStates] at hs
    rcases List.mem_cons.mp hs with rfl | hs2
    · exact h
    · have hstep := stepEvent_cap st e h
      split at hs2
      · simp only [List.mem_singleton] at hs2
        exact hs2 ▸ hstep
      · exact ih _ hstep s hs2

/-- The loop counter adds one per non-empty read, starting from the
entry state's counter. -/
lemma runLoop_count (evs : List Event) : ∀ st : SessState,
    (runLoop st evs).1.count = st.count + nonEmptyRecvCount evs := by
  induction evs with
  | nil => intro st; simp [runLoop, nonEmptyRecvCount]
  | cons e rest ih =>
    intro st
    cases e with
    | recv d now =>
      by_cases hd : d = []
      · subst hd
        simp [runLoop, stepEvent, nonEmptyRecvCount]
      · by_cases hc : BUFFER_CAP < st.buffer.length + d.length
        · simp [runLoop, stepEvent, if_neg hd, List.length_append,
            if_pos hc, nonEmptyRecvCount, ih]
          omega
        · simp [runLoop, stepEvent, if_neg hd, List.length_append,
            if_neg hc, nonEmptyRecvCount, ih]
          omega
    | timeout => simp [runLoop, stepEvent, nonEmptyRecvCount, ih]
    | rerror => simp [runLoop, stepEvent, nonEmptyRecvCount]

/-- No loop iteration ever emits a session summary. -/
lemma stepEvent_no_sessionSummary (st : SessState) (e : Event) :
    hasSessionSummary (stepEvent st e).2.1 = false := by
  cases e with
  | recv d now =>
    by_cases hd : d = []
    · subst hd; simp [stepEvent, hasSessionSummary, isSessionSummary]
    · simp only [stepEvent, if_neg hd]
      split_ifs <;>
        simp [hasSessionSummary, isSessionSummary]
  | timeout => simp [stepEvent, hasSessionSummary, isSessionSummary]
  | rerror => simp [stepEvent, hasSessionSummary, isSessionSummary]

/-- The read loop never emits a session summary. -/
lemma runLoop_no_sessionSummary (evs : List Event) : ∀ st : SessState,
    hasSessionSummary (runLoop st evs).2.1 = false := by
  induction evs with
  | nil => intro st; simp [runLoop, hasSessionSummary]
  | cons e rest ih =>
    intro st
    simp only [runLoop]
    split
    · exact stepEvent_no_sessionSummary st e
    · have h1 := stepEvent_no_sessionSummary st e
      have h2 := ih (stepEvent st e).1
      simp only [hasSessionSummary, List.any_append, Bool.or_eq_false_iff]
      exact ⟨h1, h2⟩

/-- Non-timeout iterations never write the timeout notice. -/
lemma stepEvent_no_timeoutNotice (st : SessState) (e : Event)
    (he : isTimeoutEvent e = false) :
    (stepEvent st e).2.1.filter (fun r => !isTimeoutNotice r) =
      (stepEvent st e).2.1 := by
  cases e with
  | timeout => simp [isTimeoutEvent] at he
  | rerror => simp [stepEvent, isTimeoutNotice]
  | recv d now =>
    by_cases hd : d = []
    · subst hd; simp [stepEvent, isTimeoutNotice]
    · simp only [stepEvent, if_neg hd]
      split_ifs <;> simp [isTimeoutNotice]

/-- Removing the timeout events from a trace changes neither the final
state nor the loop exit, and leaves exactly the non-notice records. -/
lemma runLoop_dropTimeouts (evs : List Event) : ∀ st : SessState,
    (runLoop st evs).1 = (runLoop st (dropTimeouts evs)).1 ∧
    (runLoop st evs).2.2 = (runLoop st (dropTimeouts evs)).2.2 ∧
    (runLoop st evs).2.1.filter (fun r => !isTimeoutNotice r) =
      (runLoop st (dropTimeouts evs)).2.1 := by
  induction evs with
  | nil => intro st; simp [runLoop, dropTimeouts]
  | cons e rest ih =>
    intro st
    cases e with
    | timeout =>
      have hdrop : dropTimeouts (Event.timeout :: rest) = dropTimeouts rest := by
        simp [dropTimeouts, isTimeoutEvent]
      rw [hdrop]
      have hstep : stepEvent st Event.timeout =
          (st, [Record.timeoutNotice], false) := rfl
      simp only [runLoop, hstep]
      simpa [isTimeoutNotice] using ih st
    | rerror =>
      have hdrop : dropTimeouts (Event.rerror :: rest) =
          Event.rerror :: dropTimeouts rest := by
        simp [dropTimeouts, isTimeoutEvent]
      rw [hdrop]
      simp [runLoop, stepEvent, isTimeoutNotice]
    | recv d now =>
      have hdrop : dropTimeouts (Event.recv d now :: rest) =
          Event.recv d now :: dropTimeouts rest := by
        simp [dropTimeouts, isTimeoutEvent]
      rw [hdrop]
      simp only [runLoop]
      obtain ⟨ih1, ih2, ih3⟩ := ih (stepEvent st (Event.recv d now)).1
      have hnn := stepEvent_no_timeoutNotice st (Event.recv d now) rfl
      split
      · exact ⟨rfl, rfl, hnn⟩
      · exact ⟨ih1, ih2, by
          simp only [List.filter_append, hnn, ih3]⟩

/-- C1: the claim says a payload starting with the 8-byte PNG signature
always classifies as `png`.  On the code it does not: `latin-1` in the
decode-fallback list decodes every byte sequence, so the signature
payload takes the textual branch and classifies as `text`, while the
(unreachable) signature table would indeed have answered `png`. -/
theorem c1_png_signature_not_detected :
    detect_protocol [0x89, 0x50, 0x4E, 0x47, 0x0D, 0x0A, 0x1A, 0x0A] =
      "text" ∧
    binarySniff [0x89, 0x50, 0x4E, 0x47, 0x0D, 0x0A, 0x1A, 0x0A] = "png" :=
  ⟨rfl, rfl⟩

/-- C2 (counterexample): classification is not pure in every field — the
result embeds the event-loop time, so two calls on the same payload at
different times differ. -/
theorem c2_counterexample_timestamp_impure :
    process_data [104] 0 ≠ process_data [104] 1 := by
  intro h
  have h2 := congrArg ProcResult.timestamp h
  have e0 : (process_data [104] 0).timestamp = some 0 := rfl
  have e1 : (process_data [104] 1).timestamp = some 1 := rfl
  rw [e0, e1] at h2
  exact absurd (Option.some.inj h2) (by decide)

/-- C2 (amended): classification of a payload is deterministic in every
field except the `timestamp` field, which records the clock reading. -/
theorem c2_deterministic_except_timestamp (data : List Nat) (t1 t2 : Nat) :
    (process_data data t1).type = (process_data data t2).type ∧
    (process_data data t1).size = (process_data data t2).size ∧
    (process_data data t1).content = (process_data data t2).content ∧
    (process_data data t1).parsed_json = (process_data data t2).parsed_json ∧
    (process_data data t1).message = (process_data data t2).message := by
  by_cases h : data = []
  · simp [process_data, h]
  · by_cases hp : detect_protocol data ∈ textualTags
    · cases htd : try_decode_text data with
      | none => simp [process_data, h, hp, htd]
      | some t =>
        by_cases ht : t = [] <;> simp [process_data, h, hp, htd, ht]
    · simp [process_data, h, hp]

/-- C3: at every read-loop boundary the rolling buffer holds at most the
1 MiB cap, and in any step on a non-empty chunk the buffer summary is
emitted exactly when the appended buffer exceeds the cap, in which case
the same step resets the buffer to empty (otherwise the appended buffer
is kept and no summary is emitted). -/
theorem c3_buffer_cap_invariant (evs : List Event) :
    (∀ s ∈ loopStates sessInit evs, s.buffer.length ≤ BUFFER_CAP) ∧
    (∀ (st : SessState) (d : List Nat) (now : Nat), d ≠ [] →
      (BUFFER_CAP < (st.buffer ++ d).length →
        (stepEvent st (Event.recv d now)).1.buffer = [] ∧
        hasBufferSummary (stepEvent st (Event.recv d now)).2.1 = true) ∧
      ((st.buffer ++ d).length ≤ BUFFER_CAP →
        (stepEvent st (Event.recv d now)).1.buffer = st.buffer ++ d ∧
        hasBufferSummary (stepEvent st (Event.recv d now)).2.1 = false)) := by
  constructor
  · exact loopStates_cap evs sessInit (by simp [sessInit])
  · intro st d now hd
    constructor
    · intro hc
      simp only [stepEvent, if_neg hd]
      rw [if_pos hc]
      simp [hasBufferSummary, isBufferSummary]
    · intro hc
      simp only [stepEvent, if_neg hd]
      rw [if_neg (by omega)]
      simp [hasBufferSummary, isBufferSummary]

/-- C3 (witness): a concrete small step stays within the cap and emits
no buffer summary. -/
theorem c3_buffer_cap_invariant_witness :
    (([7] : List Nat) ≠ []) ∧
    (sessInit.buffer ++ [7]).length ≤ BUFFER_CAP ∧
    (stepEvent sessInit (Event.recv [7] 0)).1.buffer =
      sessInit.buffer ++ [7] ∧
    hasBufferSummary (stepEvent sessInit (Event.recv [7] 0)).2.1 = false := by
  refine ⟨by decide, by decide, ?_, ?_⟩
  · exact (((c3_buffer_cap_invariant []).2 sessInit [7] 0
      (by decide)).2 (by decide)).1
  · exact (((c3_buffer_cap_invariant []).2 sessInit [7] 0
      (by decide)).2 (by decide)).2

/-- C4: a payload whose decoded text parses as a structured JSON value
(object or array) is tagged `json`, and the result's parsed-structure
field holds exactly the parsed value. -/
theorem c4_json_classification (data : List Nat) (text : List Char)
    (v : Json) (now : Nat) (hdec : try_decode_text data = some text)
    (hj : json_loads text = some v) (hs : v.isStructured = true) :
    detect_protocol data = "json" ∧
    (process_data data now).type = "json" ∧
    (process_data data now).parsed_json = some v :=
  ⟨detect_json_of_structured data text v hdec hj hs,
   process_data_json data text v now hdec hj hs⟩

/-- C4 (witness): the payload `[1]` decodes, parses as an array, and is
classified `json` with the parsed value attached. -/
theorem c4_json_classification_witness :
    try_decode_text [91, 49, 93] = some ['[', '1', ']'] ∧
    json_loads ['[', '1', ']'] = some (Json.arr [Json.num ['1']]) ∧
    (Json.arr [Json.num ['1']]).isStructured = true ∧
    (detect_protocol [91, 49, 93] = "json" ∧
      (process_data [91, 49, 93] 0).type = "json" ∧
      (process_data [91, 49, 93] 0).parsed_json =
        some (Json.arr [Json.num ['1']])) := by
  refine ⟨rfl, rfl, rfl, ?_⟩
  exact c4_json_classification [91, 49, 93] ['[', '1', ']']
    (Json.arr [Json.num ['1']]) 0 rfl rfl rfl

/-- C5 (counterexample): the decoded text `"a,b"` followed by a newline
is valid JSON (a scalar string) and contains a comma and a newline, yet
it classifies as `csv`, because the JSON branch only fires for texts
whose stripped lowercase form starts with `{` or `[`. -/
theorem c5_counterexample_scalar_json_csv :
    try_decode_text [34, 97, 44, 98, 34, 10] =
      some ['"', 'a', ',', 'b', '"', '\n'] ∧
    (json_loads ['"', 'a', ',', 'b', '"', '\n']).isSome = true ∧
    ['"', 'a', ',', 'b', '"', '\n'].contains ',' = true ∧
    ['"', 'a', ',', 'b', '"', '\n'].contains '\n' = true ∧
    detect_protocol [34, 97, 44, 98, 34, 10] = "csv" :=
  ⟨rfl, rfl, rfl, rfl, rfl⟩

/-- C5 (amended): a payload whose decoded text is valid structured JSON
(a top-level object or array) and contains commas and newlines
classifies as `json`, never `csv`. -/
theorem c5_structured_json_precedes_csv (data : List Nat)
    (text : List Char) (v : Json) (hdec : try_decode_text data = some text)
    (hj : json_loads text = some v) (hs : v.isStructured = true)
    (hcomma : text.contains ',' = true) (hnl : text.contains '\n' = true) :
    detect_protocol data = "json" ∧ detect_protocol data ≠ "csv" := by
  have h := detect_json_of_structured data text v hdec hj hs
  exact ⟨h, by rw [h]; decide⟩

/-- C5 (witness): the structured JSON payload `[1,\n2]` with a comma and
a newline classifies as `json`, not `csv`. -/
theorem c5_structured_json_precedes_csv_witness :
    try_decode_text [91, 49, 44, 10, 50, 93] =
      some ['[', '1', ',', '\n', '2', ']'] ∧
    json_loads ['[', '1', ',', '\n', '2', ']'] =
      some (Json.arr [Json.num ['1'], Json.num ['2']]) ∧
    (Json.arr [Json.num ['1'], Json.num ['2']]).isStructured = true ∧
    ['[', '1', ',', '\n', '2', ']'].contains ',' = true ∧
    ['[', '1', ',', '\n', '2', ']'].contains '\n' = true ∧
    (detect_protocol [91, 49, 44, 10, 50, 93] = "json" ∧
      detect_protocol [91, 49, 44, 10, 50, 93] ≠ "csv") := by
  refine ⟨rfl, rfl, rfl, rfl, rfl, ?_⟩
  exact c5_structured_json_precedes_csv [91, 49, 44, 10, 50, 93]
    ['[', '1', ',', '\n', '2', ']']
    (Json.arr [Json.num ['1'], Json.num ['2']]) rfl rfl rfl rfl rfl

/-- C6: after any trace of reads the message counter equals the number
of non-empty reads delivered before the loop exits; each non-empty chunk
increments it by exactly one, no step ever decrements it, and a
zero-length read leaves it unchanged. -/
theorem c6_message_counter (evs : List Event) :
    (runLoop sessInit evs).1.count = nonEmptyRecvCount evs ∧
    (∀ (st : SessState) (d : List Nat) (now : Nat), d ≠ [] →
      (stepEvent st (Event.recv d now)).1.count = st.count + 1) ∧
    (∀ (st : SessState) (e : Event), st.count ≤ (stepEvent st e).1.count) ∧
    (∀ (st : SessState) (now : Nat),
      (stepEvent st (Event.recv [] now)).1.count = st.count) := by
  refine ⟨?_, ?_, ?_, ?_⟩
  · simpa [sessInit] using runLoop_count evs sessInit
  · intro st d now hd
    simp only [stepEvent, if_neg hd]
    split_ifs <;> rfl
  · intro st e
    cases e with
    | recv d now =>
      by_cases hd : d = []
      · subst hd; simp [stepEvent]
      · simp only [stepEvent, if_neg hd]
        split_ifs <;> simp
    | timeout => simp [stepEvent]
    | rerror => simp [stepEvent]
  · intro st now
    simp [stepEvent]

/-- C6 (witness): a concrete trace of two non-empty reads, one timeout
and one zero-length read yields a counter of two, and one non-empty
step increments the counter from zero to one. -/
theorem c6_message_counter_witness :
    (runLoop sessInit [Event.recv [5] 0, Event.timeout, Event.recv [6] 1,
        Event.recv [] 2]).1.count =
      nonEmptyRecvCount [Event.recv [5] 0, Event.timeout,
        Event.recv [6] 1, Event.recv [] 2] ∧
    (([5] : List Nat) ≠ []) ∧
    (stepEvent sessInit (Event.recv [5] 0)).1.count = sessInit.count + 1 := by
  refine ⟨(c6_message_counter _).1, by decide, ?_⟩
  exact (c6_message_counter []).2.1 sessInit [5] 0 (by decide)

/-- C7: on a terminated loop, a session with at least one message emits
the session summary exactly once — after every loop record and before
the disconnect log and the transport release — and a session with zero
messages emits no session summary at all. -/
theorem c7_session_summary_once (evs : List Event)
    (hterm : (runLoop sessInit evs).2.2 = true) :
    (0 < (runLoop sessInit evs).1.count →
      runSession evs =
        (Record.welcome :: (runLoop sessInit evs).2.1) ++
          [Record.sessionSummary (runLoop sessInit evs).1.count
              (runLoop sessInit evs).1.buffer.length,
            Record.disconnected, Record.closed] ∧
      hasSessionSummary
        (Record.welcome :: (runLoop sessInit evs).2.1) = false) ∧
    ((runLoop sessInit evs).1.count = 0 →
      hasSessionSummary (runSession evs) = false) := by
  have hns := runLoop_no_sessionSummary evs sessInit
  constructor
  · intro hpos
    constructor
    · simp only [runSession]
      rw [if_pos hpos]
      simp
    · simp only [hasSessionSummary, List.any_cons, Bool.or_eq_false_iff]
      exact ⟨rfl, hns⟩
  · intro hzero
    simp only [runSession]
    rw [if_neg (by omega)]
    simp only [hasSessionSummary] at hns
    simp [hasSessionSummary, isSessionSummary, hns]

/-- C7 (witness): one message then a peer close — the loop terminates
and the theorem applies. -/
theorem c7_session_summary_once_witness :
    (runLoop sessInit [Event.recv [72] 0, Event.recv [] 1]).2.2 = true ∧
    (0 < (runLoop sessInit [Event.recv [72] 0, Event.recv [] 1]).1.count →
      runSession [Event.recv [72] 0, Event.recv [] 1] =
        (Record.welcome ::
            (runLoop sessInit [Event.recv [72] 0, Event.recv [] 1]).2.1) ++
          [Record.sessionSummary
              (runLoop sessInit [Event.recv [72] 0, Event.recv [] 1]).1.count
              (runLoop sessInit
                [Event.recv [72] 0, Event.recv [] 1]).1.buffer.length,
            Record.disconnected, Record.closed] ∧
      hasSessionSummary (Record.welcome ::
        (runLoop sessInit [Event.recv [72] 0, Event.recv [] 1]).2.1) =
        false) := by
  refine ⟨rfl, ?_⟩
  exact (c7_session_summary_once [Event.recv [72] 0, Event.recv [] 1]
    rfl).1

/-- C8: an idle timeout writes exactly one notice line and leaves the
state unchanged without exiting the loop; moreover removing all timeout
events from a trace changes neither the final state nor whether the
loop exits, and leaves exactly the non-notice records — so every read
after a timeout is processed as if the timeout had not happened. -/
theorem c8_idle_timeout_recoverable (evs : List Event) (st : SessState) :
    stepEvent st Event.timeout = (st, [Record.timeoutNotice], false) ∧
    (runLoop st evs).1 = (runLoop st (dropTimeouts evs)).1 ∧
    (runLoop st evs).2.2 = (runLoop st (dropTimeouts evs)).2.2 ∧
    (runLoop st evs).2.1.filter (fun r => !isTimeoutNotice r) =
      (runLoop st (dropTimeouts evs)).2.1 :=
  ⟨rfl, runLoop_dropTimeouts evs st⟩

/-- C9 (counterexample): the URL check runs on the original decoded
text, case-sensitively — a payload written `HTTP://EXAMPLE.COM` has the
URL shape in its normalized (lowercased, stripped) text, yet it
classifies as `text`, not `url`. -/
theorem c9_counterexample_uppercase_scheme :
    try_decode_text [72, 84, 84, 80, 58, 47, 47, 69, 88, 65, 77, 80, 76,
        69, 46, 67, 79, 77] =
      some ['H', 'T', 'T', 'P', ':', '/', '/', 'E', 'X', 'A', 'M', 'P',
        'L', 'E', '.', 'C', 'O', 'M'] ∧
    urlSearch (pyStrip ((['H', 'T', 'T', 'P', ':', '/', '/', 'E', 'X',
      'A', 'M', 'P', 'L', 'E', '.', 'C', 'O', 'M']).map pyLowerChar)) =
      true ∧
    detect_protocol [72, 84, 84, 80, 58, 47, 47, 69, 88, 65, 77, 80, 76,
      69, 46, 67, 79, 77] = "text" :=
  ⟨rfl, rfl, rfl⟩

/-- C9 (amended): the URL check applies the regex to the original
decoded text, case-sensitively; an ASCII-decoded payload whose text
contains a lowercase `http://` or `https://` followed by a non-space
character, and which fails the earlier HTTP, JSON, XML and email
checks, classifies as `url`.  The statement restricts to ASCII decoded
texts because the email model computes `\b` with the ASCII word class:
on that domain the model's email check coincides with Python's
Unicode-aware `re.search`, so the theorem transfers to the program. -/
theorem c9_url_on_original_text (data : List Nat) (text : List Char)
    (hdec : try_decode_text data = some text) (htne : text ≠ [])
    (hascii : text.all (fun c => decide (c.toNat < 128)) = true)
    (hhttp : startsWithAny httpMethods
      (pyStrip (text.map pyLowerChar)) = false)
    (hjson : ((List.isPrefixOf ['{'] (pyStrip (text.map pyLowerChar)) ||
        List.isPrefixOf ['['] (pyStrip (text.map pyLowerChar))) &&
        (json_loads text).isSome) = false)
    (hxml : xmlStart (pyStrip (text.map pyLowerChar)) = false)
    (hemail : emailSearch false text = false)
    (hurl : urlSearch text = true) :
    detect_protocol data = "url" := by
  have hdne : data ≠ [] := by
    rintro rfl
    rw [try_decode_text_nil] at hdec
    exact htne (Option.some.inj hdec).symm
  unfold detect_protocol
  simp only [if_neg hdne, hdec, if_neg htne, hhttp, hjson, hxml, hemail,
    hurl]
  simp

/-- C9 (witness): the ASCII payload `http://a` fails the earlier
checks, matches the URL regex on the original text, and classifies as
`url`. -/
theorem c9_url_on_original_text_witness :
    ['h', 't', 't', 'p', ':', '/', '/', 'a'].all
      (fun c => decide (c.toNat < 128)) = true ∧
    urlSearch ['h', 't', 't', 'p', ':', '/', '/', 'a'] = true ∧
    emailSearch false ['h', 't', 't', 'p', ':', '/', '/', 'a'] = false ∧
    detect_protocol [104, 116, 116, 112, 58, 47, 47, 97] = "url" := by
  refine ⟨rfl, rfl, rfl, ?_⟩
  exact c9_url_on_original_text [104, 116, 116, 112, 58, 47, 47, 97]
    ['h', 't', 't', 'p', ':', '/', '/', 'a'] rfl (by decide) rfl rfl rfl
    rfl rfl rfl

/-- C10: the decode fallback succeeds on every payload (latin-1 is
total), so every non-empty payload classifies as one of the seven
textual tags and the binary-signature branch is unreachable. -/
theorem c10_decode_fallback_total (data : List Nat) (hd : data ≠ []) :
    (try_decode_text data).isSome = true ∧
    detect_protocol data ∈ textualTags := by
  refine ⟨try_decode_text_isSome data, ?_⟩
  cases htd : try_decode_text data with
  | none =>
    have := try_decode_text_isSome data
    rw [htd] at this
    exact absurd this (by simp)
  | some t =>
    exact detect_textual data t hd htd (try_decode_text_ne_nil data t hd htd)

/-- C10 (witness): even a lone zero byte decodes and classifies as a
textual tag. -/
theorem c10_decode_fallback_total_witness :
    (([0] : List Nat) ≠ []) ∧
    (try_decode_text [0]).isSome = true ∧
    detect_protocol [0] ∈ textualTags := by
  refine ⟨by decide, ?_⟩
  exact c10_decode_fallback_total [0] (by decide)
